import Mathlib

/-!
Verification of the Crane compiler backend
(`crates/crane/src/backend/native.rs`) against its specification.

The backend consumes a typed declaration tree and builds an LLVM module:
it synthesizes a fixed runtime prelude, lowers each user function
(in reverse declaration order), emits object code and invokes an external
linker.  This file gives a shallow embedding of that pipeline:

* the typed AST (`TyItem`, `TyStmt`, `TyExpr`, ...) as consumed by
  `NativeBackend::compile`;
* a machine-level module model (`FnDef`, `GlobalDef`, `Instr`, `MValue`)
  standing for the LLVM module, functions, globals and instructions the
  backend builds through inkwell;
* the lowering functions, translated one-to-one from the Rust source
  (`compile`, `compile_expr`, `compile_fn_call`, `compile_string_literal`,
  `compile_integer_literal`);
* the link-step driver (`Command::new("clang")...`).

Process aborts (`panic!`, `todo!`, `.expect`, `.unwrap`) are modelled as a
`Fatal` error monad; recoverable errors (the `Result::Err` of
`compile_fn_call`) keep their own layer, and lines written to the error
stream by `eprintln!` are accumulated as `Diag` values.
-/

namespace Crane

/-! ## Typed AST (input of the backend)

Shapes follow `crate::ast` as consumed by `backend/native.rs` and the
data model of the spec (section 3).  Spans are omitted: the backend never
reads them.  `TyItemKind` has only the `Fn` arm, matching the exhaustive
match in `NativeBackend::compile` (native.rs line 294). -/

/-- Rust `crate::typer::Type`: a function type or a user-defined nominal type
identified by originating module and name (spec section 3). -/
inductive Ty where
  | fn (args : List Ty) (return_ty : Ty)
  | userDefined (module : String) (name : String)

/-- Width-and-signedness of an integer literal; only unsigned 64-bit is
supported in this core. -/
inductive TyUint where
  | uint64
deriving DecidableEq, Repr

/-- Rust `TyIntegerLiteral::Unsigned(value, TyUint::Uint64)`.  The value is a
mathematical natural; the lowering truncates it to 64 bits
(`value as u64`, native.rs line 476). -/
inductive TyIntegerLiteral where
  | unsigned (value : Nat) (width : TyUint)
deriving DecidableEq, Repr

/-- Rust `TyLiteralKind`: a string literal stores its raw quoted lexeme
(quote characters included); an integer literal stores the value. -/
inductive TyLiteralKind where
  | string (lexeme : String)
  | integer (lit : TyIntegerLiteral)
deriving DecidableEq, Repr

/-- A typed function parameter: declared name and resolved type
(`TyFnParam`, span omitted). -/
structure TyFnParam where
  name : String
  ty : Ty

mutual

/-- A top-level typed item: a name and a kind (`TyItem`). -/
inductive TyItem where
  | mk (name : String) (kind : TyItemKind)

/-- Rust `TyItemKind`: only functions reach the backend in this version. -/
inductive TyItemKind where
  | fn (decl : TyFn)

/-- A typed function declaration: parameters and a flat statement list
(`TyFn`).  The declared return type is not read by the backend, so it is
not modelled; the machine return type depends only on the item name. -/
inductive TyFn where
  | mk (params : List TyFnParam) (body : List TyStmt)

/-- Rust `TyStmtKind`: an expression statement or a nested item. -/
inductive TyStmt where
  | expr (e : TyExpr)
  | item (i : TyItem)

/-- Rust `TyExprKind`: literals, variable references and calls. -/
inductive TyExpr where
  | literal (lit : TyLiteralKind)
  | var (name : String)
  | call (callee : TyExpr) (args : List TyExpr)

end

/-- Name of a typed item. -/
def TyItem.name : TyItem → String
  | .mk n _ => n

/-- Kind of a typed item. -/
def TyItem.kind : TyItem → TyItemKind
  | .mk _ k => k

/-! ## Machine-level model of the LLVM module

The backend targets `aarch64-apple-darwin` (native.rs lines 36-53), a
64-bit target: pointers are 8 bytes wide. -/

/-- Machine value types used by the backend: `i8`, `i32`, `i64`, `void`,
pointers and constant byte arrays. -/
inductive MTy where
  | i8
  | i32
  | i64
  | void
  | ptr (elem : MTy)
  | array (elem : MTy) (size : Nat)
deriving DecidableEq, Repr

/-- Byte size of a machine type on the 64-bit `aarch64-apple-darwin`
target configured by the backend. -/
def sizeOfMTy : MTy → Nat
  | .i8 => 1
  | .i32 => 4
  | .i64 => 8
  | .void => 0
  | .ptr _ => 8
  | .array e n => n * sizeOfMTy e

/-- Linkage explicitly set by the backend. -/
inductive Linkage where
  | external
  | internal
deriving DecidableEq, Repr

/-- A machine function type: parameter types, variadic flag, return type
(inkwell `fn_type`). -/
structure FnType where
  params : List MTy
  variadic : Bool
  ret : MTy
deriving DecidableEq, Repr

/-- A module-level byte-array global (added with `add_global`; the
backend always follows with `set_linkage`, `set_constant` and
`set_initializer`, so those are fields). `init` holds the initializer
bytes, terminator included. -/
structure GlobalDef where
  name : String
  ty : MTy
  init : List Nat
  linkage : Linkage
  constant : Bool
deriving DecidableEq, Repr

/-- A machine value as used for instruction operands: a machine
parameter of the enclosing function (by index), the address of a module
global (by position in the module's global list), an integer immediate
(bit width and value), or the result of a previously built instruction
of the enclosing function (by position in its body). -/
inductive MValue where
  | param (idx : Nat)
  | globalAddr (gidx : Nat)
  | constInt (width : Nat) (value : Nat)
  | instrRes (idx : Nat)
deriving DecidableEq, Repr

/-- Instructions the backend builds.  `free` corresponds to inkwell's
`build_free`, which the backend never calls (relevant to the
`int_to_string` leak). -/
inductive Instr where
  | call (callee : String) (args : List MValue)
  | add (lhs : MValue) (rhs : MValue)
  | malloc (elemTy : MTy)
  | free (ptr : MValue)
  | ret (value : Option MValue)
deriving DecidableEq, Repr

/-- Whether an instruction is a heap free; the backend never emits
one. -/
def isFreeInstr : Instr → Bool
  | .free _ => true
  | _ => false

/-- A function in the module: name, machine type, the linkage passed to
`add_function` (`some .external` for the C-runtime bindings, `none`
otherwise) and a body (`none` for bodiless external declarations). -/
structure FnDef where
  name : String
  ty : FnType
  linkage : Option Linkage
  body : Option (List Instr)
deriving DecidableEq, Repr

/-- A line written to the error stream by `eprintln!`. -/
inductive Diag where
  | fnNotFound (name : String)
deriving DecidableEq, Repr

/-- The recoverable error of `compile_fn_call` (its `Result::Err`
carries a message identifying the missing callee). -/
inductive CallErr where
  | fnNotFound (name : String)
deriving DecidableEq, Repr

/-- Process aborts: `todo!`, `panic!`-style macros, `.expect` and
`.unwrap` failures in the backend, and the fatal spawn failure of the
linker process. -/
inductive Fatal where
  /-- The arm `Type::Fn { .. } => todo!()` in the parameter mapping (line 301). -/
  | todoFnParamType
  /-- The unknown-parameter-type abort (line 312). -/
  | unknownParamType (module : String) (name : String)
  /-- The arm `TyStmtKind::Item(item) => todo!()` (line 354). -/
  | todoNestedItem
  /-- The arm `TyExprKind::Variable { name } => todo!()` in statement position
  (line 424). -/
  | todoVariableExpr
  /-- Non-variable callee expression: `_ => todo!()` (line 493). -/
  | todoIndirectCallee
  /-- The expect-abort on a failed call
  lowering in statement position (line 435). -/
  | expectCallFailed (name : String)
  /-- The param-not-found expect-abort: argument name absent from the
  callers declared parameters (line 517). -/
  | paramNotFound (name : String)
  /-- The expect-abort on a failed `get_nth_param` (line 521). -/
  | machineParamNotFound
  /-- The unwrap-abort on a failed nested call lowering in argument
  position (line 534). -/
  | callUnwrapFailed (err : CallErr)
  /-- The abort of `try_as_basic_value` plus `unwrap_left` on a
  void-returning nested call (line 536). -/
  | unwrapLeftOnVoid
  /-- The `panic!` branch when `sprintf` is missing while synthesizing
  `int_to_string` (line 280). -/
  | sprintfNotFound
  /-- The expect-abort on a linker process that
  fails to spawn (line 390). -/
  | clangSpawnFailed
deriving DecidableEq, Repr

/-- The LLVM module plus the error-stream trace: functions and globals
in insertion order, `eprintln!` diagnostics, and a trace of the user
items lowered so far, in lowering order (ghost field recording the
iteration order of the item loop, native.rs lines 288-293). -/
structure St where
  functions : List FnDef
  globals : List GlobalDef
  diagnostics : List Diag
  lowered : List String
deriving DecidableEq, Repr

/-- The initial, empty module. -/
def emptySt : St :=
  { functions := [], globals := [], diagnostics := [], lowered := [] }

/-- The mutable context while a single function body is being built:
module globals, diagnostics, and the instructions of the entry block of
the function under construction.  The module's function list is never
written during body lowering, so it is passed read-only alongside. -/
structure BodySt where
  globals : List GlobalDef
  diagnostics : List Diag
  body : List Instr
deriving DecidableEq, Repr

/-- Lookup `module.get_function(name)`: first function with the given name. -/
def getFunction (fns : List FnDef) (name : String) : Option FnDef :=
  fns.find? (fun fd => fd.name == name)

/-- The result of `build_call`: position of the call instruction in the
body under construction and the callee's return type (the data
`CallSiteValue::try_as_basic_value` consults). -/
structure CallSite where
  idx : Nat
  retTy : MTy
deriving DecidableEq, Repr

/-! ## Type-to-machine-representation mapping (native.rs lines 296-322) -/

/-- The parameter-type mapping inside `NativeBackend::compile`:
`Fn` types are unimplemented (`todo!`), `std::prelude::String` maps to a
byte pointer, `std::prelude::Uint64` to a 64-bit integer, and every
other user-defined type aborts with the unknown-type `panic!`. -/
def mapParamType : Ty → Except Fatal MTy
  | .fn _ _ => .error .todoFnParamType
  | .userDefined m n =>
    if m = "std::prelude" ∧ n = "String" then .ok (MTy.ptr .i8)
    else if m = "std::prelude" ∧ n = "Uint64" then .ok MTy.i64
    else .error (.unknownParamType m n)

/-- Maps a declared parameter list left-to-right, aborting at the first
unmappable type (the `params.iter().map(...).collect()` of line 296). -/
def mapParamTypes : List TyFnParam → Except Fatal (List MTy)
  | [] => .ok []
  | p :: rest =>
    match mapParamType p.ty with
    | .error f => .error f
    | .ok t =>
      match mapParamTypes rest with
      | .error f => .error f
      | .ok ts => .ok (t :: ts)

/-! ## Expression lowering -/

/-- UTF-8 bytes of a string (`str::as_bytes`). -/
def strBytes (s : String) : List Nat :=
  (s.data.flatMap (fun c => String.utf8EncodeChar c)).map (fun b => b.toNat)

/-- Unquoting of a string literal lexeme (native.rs lines 446-452):
drop the first and the last character. -/
def unquote (s : String) : String :=
  (s.drop 1).dropRight 1

/-- Function `NativeBackend::compile_string_literal` (lines 440-467): unquote the
lexeme, build an `i8` array type of the unquoted byte length plus one,
and add a fresh private constant internally-linked global named
`"string_lit"` whose initializer is the null-terminated byte string.
Returns the new context and the position of the new global (the
`GlobalValue` whose address the caller uses). -/
def compile_string_literal (b : BodySt) (lexeme : String) : BodySt × Nat :=
  let value := strBytes (unquote lexeme)
  let g : GlobalDef :=
    { name := "string_lit"
      ty := MTy.array .i8 (value.length + 1)
      init := value ++ [0]
      linkage := .internal
      constant := true }
  ({ b with globals := b.globals ++ [g] }, b.globals.length)

/-- Function `NativeBackend::compile_integer_literal` (lines 469-480): an
unsigned 64-bit literal becomes an `i64` immediate, truncated to 64 bits
(`value as u64`). -/
def compile_integer_literal (lit : TyIntegerLiteral) : MValue :=
  match lit with
  | .unsigned value .uint64 => .constInt 64 (value % 2 ^ 64)

/-- The parameter search of `compile_fn_call` (lines 513-517):
`caller_params.into_iter().enumerate().find(|(_, param)| param.name == name)`,
a linear search by name over the caller's declared parameters that
yields the first matching index. -/
def findParam (name : String) : List TyFnParam → Nat → Option (Nat × TyFnParam)
  | [], _ => none
  | p :: rest, i =>
    if p.name == name then some (i, p) else findParam name rest (i + 1)

mutual

/-- Function `NativeBackend::compile_fn_call` (lines 482-546).  The callee must be
a bare variable reference (anything else is `todo!`).  If the name is
absent from the module's symbol table, an error line is written and the
call lowering fails recoverably; otherwise the arguments are lowered
left-to-right and a call instruction is built.  `fns` is the module
symbol table (read-only during body lowering), `ps` the caller's
declared parameters, `cnt` the caller's machine parameter count. -/
def compile_fn_call (fns : List FnDef) (ps : List TyFnParam) (cnt : Nat)
    (b : BodySt) (callee : TyExpr) (args : List TyExpr) :
    Except Fatal (BodySt × Except CallErr CallSite) :=
  match callee with
  | .var callee_name =>
    match getFunction fns callee_name with
    | some calleeFn =>
      match compile_call_args fns ps cnt b args with
      | .error f => .error f
      | .ok (b1, argVals) =>
        let idx := b1.body.length
        let b2 := { b1 with body := b1.body ++ [Instr.call calleeFn.name argVals] }
        .ok (b2, .ok { idx := idx, retTy := calleeFn.ty.ret })
    | none =>
      .ok ({ b with diagnostics := b.diagnostics ++ [Diag.fnNotFound callee_name] },
           .error (.fnNotFound callee_name))
  | _ => .error .todoIndirectCallee
termination_by sizeOf args + 1
decreasing_by simp_wf

/-- The argument-lowering closure of `compile_fn_call` (lines 497-539),
run left-to-right over the argument list: string literals intern a fresh
global and pass its address, integer literals become immediates,
variable references resolve against the caller's declared parameters
only (a miss is a fatal `.expect` abort), and nested calls recurse (a
failed nested call is `.unwrap`ped fatally, and a void-returning nested
callee makes `unwrap_left` abort). -/
def compile_call_args (fns : List FnDef) (ps : List TyFnParam) (cnt : Nat)
    (b : BodySt) : List TyExpr → Except Fatal (BodySt × List MValue)
  | [] => .ok (b, [])
  | arg :: rest =>
    let one : Except Fatal (BodySt × MValue) :=
      match arg with
      | .literal (.string lexeme) =>
        let r := compile_string_literal b lexeme
        .ok (r.1, .globalAddr r.2)
      | .literal (.integer lit) =>
        .ok (b, compile_integer_literal lit)
      | .var name =>
        match findParam name ps 0 with
        | some (param_index, _) =>
          if param_index < cnt then .ok (b, .param param_index)
          else .error .machineParamNotFound
        | none => .error (.paramNotFound name)
      | .call f as =>
        match compile_fn_call fns ps cnt b f as with
        | .error f => .error f
        | .ok (_, .error e) => .error (.callUnwrapFailed e)
        | .ok (b1, .ok cs) =>
          if cs.retTy = MTy.void then .error .unwrapLeftOnVoid
          else .ok (b1, .instrRes cs.idx)
    match one with
    | .error f => .error f
    | .ok (b1, v) =>
      match compile_call_args fns ps cnt b1 rest with
      | .error f => .error f
      | .ok (b2, vs) => .ok (b2, v :: vs)
termination_by args => sizeOf args
decreasing_by all_goals (simp_wf <;> omega)

end

/-- Function `NativeBackend::compile_expr` (lines 409-438), statement position:
a string literal is interned and its value discarded, an integer literal
emits nothing, a variable reference is `todo!`, and a call is lowered
with its failure `.expect`ed into a process abort and its call-site
value dropped. -/
def compile_expr (fns : List FnDef) (ps : List TyFnParam) (cnt : Nat)
    (b : BodySt) (e : TyExpr) : Except Fatal BodySt :=
  match e with
  | .literal (.string lexeme) => .ok (compile_string_literal b lexeme).1
  | .literal (.integer _) => .ok b
  | .var _ => .error .todoVariableExpr
  | .call f args =>
    match compile_fn_call fns ps cnt b f args with
    | .error fatal => .error fatal
    | .ok (_, .error (.fnNotFound n)) => .error (.expectCallFailed n)
    | .ok (b1, .ok _) => .ok b1

/-- One statement of a function body (native.rs lines 344-356): an
expression statement lowers its expression (discarding any value), a
nested item is fatal-unsupported. -/
def compileStmt (fns : List FnDef) (ps : List TyFnParam) (cnt : Nat)
    (b : BodySt) (s : TyStmt) : Except Fatal BodySt :=
  match s with
  | .expr e => compile_expr fns ps cnt b e
  | .item _ => .error .todoNestedItem

/-- The statement loop of a function body, aborting at the first fatal
failure. -/
def compileStmts (fns : List FnDef) (ps : List TyFnParam) (cnt : Nat)
    (b : BodySt) : List TyStmt → Except Fatal BodySt
  | [] => .ok b
  | s :: rest =>
    match compileStmt fns ps cnt b s with
    | .error f => .error f
    | .ok b1 => compileStmts fns ps cnt b1 rest

/-! ## Item lowering (native.rs lines 288-367) -/

/-- Lowering of one user item: map the declared parameter types, build
the machine function type (a function named `main` returns `i32`, any
other returns `void`), add the function to the module before lowering
its body (so the symbol table already contains it), lower each
statement into the entry block, and append the specialized return
(`i32 0` for `main`, void otherwise).  The ghost `lowered` trace records
the item's name.  LLVM verification and the optimization pass (lines
364, 395-407) are structural checks external to this model. -/
def compileItem (st : St) (item : TyItem) : Except Fatal St :=
  match item with
  | .mk itemName (.fn (.mk params body)) =>
    match mapParamTypes params with
    | .error f => .error f
    | .ok mparams =>
      let is_main_fn := itemName == "main"
      let fnTy : FnType :=
        { params := mparams
          variadic := false
          ret := if is_main_fn then MTy.i32 else MTy.void }
      let fd : FnDef := { name := itemName, ty := fnTy, linkage := none, body := some [] }
      let fns := st.functions ++ [fd]
      let b0 : BodySt :=
        { globals := st.globals, diagnostics := st.diagnostics, body := [] }
      match compileStmts fns params mparams.length b0 body with
      | .error f => .error f
      | .ok b1 =>
        let b2 :=
          if is_main_fn then
            { b1 with body := b1.body ++ [Instr.ret (some (.constInt 32 0))] }
          else
            { b1 with body := b1.body ++ [Instr.ret none] }
        .ok { functions := st.functions ++ [{ fd with body := some b2.body }]
              globals := b2.globals
              diagnostics := b2.diagnostics
              lowered := st.lowered ++ [itemName] }

/-- The item loop, in the order the backend iterates. -/
def compileItems (st : St) : List TyItem → Except Fatal St
  | [] => .ok st
  | item :: rest =>
    match compileItem st item with
    | .error f => .error f
    | .ok st1 => compileItems st1 rest

/-! ## Runtime prelude synthesis (native.rs lines 64-286)

Each block below mirrors one `// Define ...` block of
`NativeBackend::compile`, in source order.  `verify_fn` (lines 395-407)
runs LLVM's structural verifier and the instruction-combining pass over
the finished function; both are external to this model. -/

/-- Define `puts` (lines 64-79): external binding `(i8*) -> i32`,
no body generated. -/
def definePuts (st : St) : St :=
  { st with functions := st.functions ++
      [{ name := "puts"
         ty := { params := [MTy.ptr .i8], variadic := false, ret := MTy.i32 }
         linkage := some .external
         body := none }] }

/-- Define `sprintf` (lines 81-103): external variadic binding
`(i8*, i8*, ...) -> i32`, no body generated. -/
def defineSprintf (st : St) : St :=
  { st with functions := st.functions ++
      [{ name := "sprintf"
         ty := { params := [MTy.ptr .i8, MTy.ptr .i8], variadic := true, ret := MTy.i32 }
         linkage := some .external
         body := none }] }

/-- Define `printf` (lines 105-121): external variadic binding
`(i8*, ...) -> i32`, no body generated. -/
def definePrintf (st : St) : St :=
  { st with functions := st.functions ++
      [{ name := "printf"
         ty := { params := [MTy.ptr .i8], variadic := true, ret := MTy.i32 }
         linkage := some .external
         body := none }] }

/-- Define `print` (lines 123-170): `(i8*) -> void`.  Adds the constant
internal global `print_template` holding the null-terminated bytes of
the positional format string (percent, 1, dollar, s), then calls
`printf` with the template's address and the parameter.  When the lookup
of `printf` fails the backend only writes an error line (which, per the
source, names `puts`) and still returns void. -/
def definePrint (st : St) : St :=
  let fd : FnDef :=
    { name := "print"
      ty := { params := [MTy.ptr .i8], variadic := false, ret := MTy.void }
      linkage := none
      body := some [] }
  let fns := st.functions ++ [fd]
  let gidx := st.globals.length
  let globals := st.globals ++
    [{ name := "print_template"
       ty := MTy.array .i8 5
       init := [37, 49, 36, 115, 0]
       linkage := .internal
       constant := true }]
  let callAndDiags : List Instr × List Diag :=
    match getFunction fns "printf" with
    | some callee => ([Instr.call callee.name [.globalAddr gidx, .param 0]], st.diagnostics)
    | none => ([], st.diagnostics ++ [Diag.fnNotFound "puts"])
  { functions := st.functions ++ [{ fd with body := some (callAndDiags.1 ++ [Instr.ret none]) }]
    globals := globals
    diagnostics := callAndDiags.2
    lowered := st.lowered }

/-- Define `println` (lines 172-203): `(i8*) -> void`, forwarding its
parameter to `puts`; a failed lookup of `puts` only writes an error
line. -/
def definePrintln (st : St) : St :=
  let fd : FnDef :=
    { name := "println"
      ty := { params := [MTy.ptr .i8], variadic := false, ret := MTy.void }
      linkage := none
      body := some [] }
  let fns := st.functions ++ [fd]
  let callAndDiags : List Instr × List Diag :=
    match getFunction fns "puts" with
    | some callee => ([Instr.call callee.name [.param 0]], st.diagnostics)
    | none => ([], st.diagnostics ++ [Diag.fnNotFound "puts"])
  { functions := st.functions ++ [{ fd with body := some (callAndDiags.1 ++ [Instr.ret none]) }]
    globals := st.globals
    diagnostics := callAndDiags.2
    lowered := st.lowered }

/-- Define `int_add` (lines 205-233): `(i64, i64) -> i64`, a single add
over its two parameters, returning the sum. -/
def defineIntAdd (st : St) : St :=
  { st with functions := st.functions ++
      [{ name := "int_add"
         ty := { params := [MTy.i64, MTy.i64], variadic := false, ret := MTy.i64 }
         linkage := none
         body := some [Instr.add (.param 0) (.param 1),
                       Instr.ret (some (.instrRes 0))] }] }

/-- Define `int_to_string` (lines 235-286): `(i64) -> i8*`.  The buffer
is `build_malloc(i8_ptr_type, "buffer")`: its element type is the byte
POINTER type, so the allocation is one pointer wide.  Adds the constant
internal global `int_to_string_template` (null-terminated bytes of the
positional decimal format: percent, 1, dollar, d), calls `sprintf` with
the buffer, the template address and the integer parameter, and returns
the buffer; the buffer is never freed.  A failed lookup of `sprintf` is
a `panic!`. -/
def defineIntToString (st : St) : Except Fatal St :=
  let fd : FnDef :=
    { name := "int_to_string"
      ty := { params := [MTy.i64], variadic := false, ret := MTy.ptr .i8 }
      linkage := none
      body := some [] }
  let fns := st.functions ++ [fd]
  let buffer : MValue := .instrRes 0
  let gidx := st.globals.length
  let globals := st.globals ++
    [{ name := "int_to_string_template"
       ty := MTy.array .i8 5
       init := [37, 49, 36, 100, 0]
       linkage := .internal
       constant := true }]
  match getFunction fns "sprintf" with
  | some callee =>
    let builtBody : List Instr :=
      [Instr.malloc (MTy.ptr .i8),
       Instr.call callee.name [buffer, .globalAddr gidx, .param 0],
       Instr.ret (some buffer)]
    .ok { functions := st.functions ++ [{ fd with body := some builtBody }]
          globals := globals
          diagnostics := st.diagnostics
          lowered := st.lowered }
  | none => .error .sprintfNotFound

/-- The whole prelude, synthesized once per compilation in source
order, before any user item is lowered. -/
def defineBuiltins (st : St) : Except Fatal St :=
  defineIntToString
    (defineIntAdd (definePrintln (definePrint (definePrintf (defineSprintf (definePuts st))))))

/-! ## The compilation driver and the link step -/

/-- Function `NativeBackend::compile` on the item list: prelude synthesis, then
the user items in the REVERSE of their declaration order (the ordering
hack of lines 288-293). -/
def compile (program : List TyItem) : Except Fatal St :=
  match defineBuiltins emptySt with
  | .error f => .error f
  | .ok st => compileItems st program.reverse

/-- An external process invocation: program name and argument list. -/
structure ExternalCommand where
  program : String
  args : List String
deriving DecidableEq, Repr

/-- The single linker invocation of the backend (native.rs lines
387-389): `clang` with the output path (after `-o`) followed by the
input object path. -/
def clangCommand : ExternalCommand :=
  { program := "clang", args := ["-o", "build/main", "build/main.o"] }

/-- Outcome of spawning the linker process: either the spawn itself
failed, or the process ran and exited with a status. -/
inductive SpawnOutcome where
  | spawnFailed
  | exited (status : Int)
deriving DecidableEq, Repr

/-- The link step (lines 387-392): a spawn failure is a fatal `.expect`
abort; otherwise the exit status is printed
(`println!("clang exited with {}", ...)`) and returned without being
interpreted — a nonzero status does not fail the compilation. -/
def runLinkStep (outcome : SpawnOutcome) : Except Fatal Int :=
  match outcome with
  | .spawnFailed => .error .clangSpawnFailed
  | .exited status => .ok status

/-- The full pipeline: lower the program, then (after the textual IR,
object file and appended bitcode are written — file contents outside
this model) spawn the linker once.  Returns the final module and the
printed linker exit status. -/
def compileAndLink (program : List TyItem) (outcome : SpawnOutcome) :
    Except Fatal (St × Int) :=
  match compile program with
  | .error f => .error f
  | .ok st =>
    match runLinkStep outcome with
    | .error f => .error f
    | .ok status => .ok (st, status)

/-! ## Concrete inputs used by the closed witness theorems -/

/-- A demo `main` with no parameters and an empty body. -/
def mainDemo : TyItem := .mk "main" (.fn (.mk [] []))

/-- A demo helper function declared after `main`. -/
def helperDemo : TyItem := .mk "helper" (.fn (.mk [] []))

/-- An empty body-lowering context. -/
def emptyBody : BodySt := { globals := [], diagnostics := [], body := [] }

/-- The supported unsigned 64-bit integer type. -/
def u64Ty : Ty := .userDefined "std::prelude" "Uint64"

/-- A demo parameter named `a` of the supported integer type. -/
def pDemoA : TyFnParam := { name := "a", ty := .userDefined "std::prelude" "Uint64" }

/-- A demo parameter named `b` of the supported integer type. -/
def pDemoB : TyFnParam := { name := "b", ty := .userDefined "std::prelude" "Uint64" }

/-- A tiny symbol table holding one void function named `f`, used to
exercise a successful call lowering. -/
def voidFnDemo : FnDef :=
  { name := "f"
    ty := { params := [], variadic := false, ret := MTy.void }
    linkage := none
    body := some [] }

/-! ## Helper lemmas -/

/-- Anatomy of a successful item lowering: the parameter mapping and the
body lowering succeeded, and the resulting module is the old one
extended with exactly one function that carries the specialized return
as its final instruction. -/
theorem compileItem_ok_elim {st : St} {it : TyItem} {st' : St}
    (h : compileItem st it = .ok st') :
    ∃ nm ps bd mp b1,
      it = .mk nm (.fn (.mk ps bd)) ∧
      mapParamTypes ps = .ok mp ∧
      compileStmts
        (st.functions ++
          [{ name := nm
             ty := { params := mp, variadic := false
                     ret := if nm == "main" then MTy.i32 else MTy.void }
             linkage := none, body := some [] }])
        ps mp.length
        { globals := st.globals, diagnostics := st.diagnostics, body := [] } bd = .ok b1 ∧
      st' =
        { functions := st.functions ++
            [{ name := nm
               ty := { params := mp, variadic := false
                       ret := if nm == "main" then MTy.i32 else MTy.void }
               linkage := none
               body := some (b1.body ++
                 [if nm == "main" then Instr.ret (some (.constInt 32 0)) else Instr.ret none]) }]
          globals := b1.globals
          diagnostics := b1.diagnostics
          lowered := st.lowered ++ [nm] } := by
  obtain ⟨nm, k⟩ := it
  obtain ⟨f⟩ := k
  obtain ⟨ps, bd⟩ := f
  refine ⟨nm, ps, bd, ?_⟩
  simp only [compileItem] at h
  by_cases hm : (nm == "main") = true
  · simp only [hm, ite_true] at h ⊢
    split at h
    · simp at h
    · rename_i mp hmp
      split at h
      · simp at h
      · rename_i b1 hcs
        cases h
        exact ⟨mp, b1, trivial, hmp, hcs, rfl⟩
  · rw [Bool.not_eq_true] at hm
    simp only [hm, Bool.false_eq_true, ite_false] at h ⊢
    split at h
    · simp at h
    · rename_i mp hmp
      split at h
      · simp at h
      · rename_i b1 hcs
        cases h
        exact ⟨mp, b1, trivial, hmp, hcs, rfl⟩

/-- Each successfully lowered item appends exactly one function (bearing
the item's name) to the module, and records the name in the lowering
trace. -/
theorem compileItem_names {st : St} {it : TyItem} {st' : St}
    (h : compileItem st it = .ok st') :
    st'.functions.map FnDef.name = st.functions.map FnDef.name ++ [it.name] ∧
    st'.lowered = st.lowered ++ [it.name] := by
  obtain ⟨nm, ps, bd, mp, b1, hit, _, _, hst⟩ := compileItem_ok_elim h
  subst hst
  subst hit
  simp [TyItem.name]

/-- Over a successfully lowered item list, the module's function names
extend by the items' names in processed order, as does the lowering
trace. -/
theorem compileItems_names {l : List TyItem} {st st' : St}
    (h : compileItems st l = .ok st') :
    st'.functions.map FnDef.name = st.functions.map FnDef.name ++ l.map TyItem.name ∧
    st'.lowered = st.lowered ++ l.map TyItem.name := by
  induction l generalizing st with
  | nil =>
    simp only [compileItems, Except.ok.injEq] at h
    subst h
    simp
  | cons it rest ih =>
    simp only [compileItems] at h
    split at h
    · simp at h
    · rename_i st1 hit
      obtain ⟨h1, h2⟩ := compileItem_names hit
      obtain ⟨h3, h4⟩ := ih h
      refine ⟨?_, ?_⟩
      · rw [h3, h1, List.map_cons, List.append_assoc]
        rfl
      · rw [h4, h2, List.map_cons, List.append_assoc]
        rfl

/-! ## Claim theorems -/

/-- C1: for every lowered user function item, a function named `main`
gets a machine function type returning a 32-bit integer and an appended
terminator returning the 32-bit constant 0; a function with any other
name gets a void-returning machine type and an appended void return. -/
theorem C1_main_specialization {st : St} {nm : String} {f : TyFn} {st' : St}
    (h : compileItem st (.mk nm (.fn f)) = .ok st') :
    ∃ fd instrs,
      st'.functions = st.functions ++ [fd] ∧
      fd.name = nm ∧ fd.body = some instrs ∧
      (nm = "main" →
        fd.ty.ret = MTy.i32 ∧
        instrs.getLast? = some (Instr.ret (some (.constInt 32 0)))) ∧
      (nm ≠ "main" →
        fd.ty.ret = MTy.void ∧
        instrs.getLast? = some (Instr.ret none)) := by
  obtain ⟨nm', ps, bd, mp, b1, hit, hmp, hcs, hst⟩ := compileItem_ok_elim h
  injection hit with h1 h2
  subst h1
  subst hst
  refine ⟨_, _, rfl, rfl, rfl, ?_, ?_⟩
  · intro hmain
    subst hmain
    simp
  · intro hne
    have hb : (nm == "main") = false := by
      simpa using hne
    simp [hb]

/-- C1 witness: lowering a concrete parameterless `main` with an empty
body. -/
theorem C1_witness :
    ∃ st' : St, compileItem emptySt mainDemo = .ok st' ∧
      ∃ fd instrs,
        st'.functions = emptySt.functions ++ [fd] ∧
        fd.name = "main" ∧ fd.body = some instrs ∧
        ("main" = "main" →
          fd.ty.ret = MTy.i32 ∧
          instrs.getLast? = some (Instr.ret (some (.constInt 32 0)))) ∧
        ("main" ≠ "main" →
          fd.ty.ret = MTy.void ∧
          instrs.getLast? = some (Instr.ret none)) :=
  ⟨_, rfl, C1_main_specialization (f := TyFn.mk [] []) rfl⟩

/-- C5: the type-to-machine mapping sends `std::prelude::String` to a
byte pointer and `std::prelude::Uint64` to a 64-bit integer; any other
user-defined module/name pair is a fatal unknown-type abort (an
unrecovered `Fatal`, not a `Diag` diagnostic), and a `Fn`-typed
parameter is a fatal `todo!`.  The last conjunct shows the abort at the
item-lowering level. -/
theorem C5_type_mapping :
    mapParamType (Ty.userDefined "std::prelude" "String") = .ok (MTy.ptr .i8) ∧
    mapParamType (Ty.userDefined "std::prelude" "Uint64") = .ok MTy.i64 ∧
    (∀ m n, ¬(m = "std::prelude" ∧ n = "String") → ¬(m = "std::prelude" ∧ n = "Uint64") →
      mapParamType (Ty.userDefined m n) = .error (.unknownParamType m n)) ∧
    (∀ args rt, mapParamType (Ty.fn args rt) = .error .todoFnParamType) ∧
    (∀ (st : St) (itemName pName m n : String) (bd : List TyStmt),
      ¬(m = "std::prelude" ∧ n = "String") → ¬(m = "std::prelude" ∧ n = "Uint64") →
      compileItem st (.mk itemName (.fn (.mk [⟨pName, .userDefined m n⟩] bd))) =
        .error (.unknownParamType m n)) := by
  refine ⟨rfl, rfl, ?_, ?_, ?_⟩
  · intro m n h1 h2
    simp [mapParamType, h1, h2]
  · intro args rt
    rfl
  · intro st itemName pName m n bd h1 h2
    simp [compileItem, mapParamTypes, mapParamType, h1, h2]

/-- C5 witness: the unsupported prelude type `Bool` aborts. -/
theorem C5_witness :
    mapParamType (Ty.userDefined "std::prelude" "Bool") =
      .error (.unknownParamType "std::prelude" "Bool") :=
  C5_type_mapping.2.2.1 "std::prelude" "Bool" (by decide) (by decide)

/-- C7: before any user item is lowered, the module holds exactly the
fixed prelude set — `puts`, `sprintf`, `printf` as bodiless external
bindings, then `print`, `println`, `int_add`, `int_to_string` with
lowered bodies — and the driver reaches the user items from exactly that
state for every input program. -/
theorem C7_prelude_exact :
    ∃ pst : St,
      defineBuiltins emptySt = .ok pst ∧
      pst.functions.map (fun fd => (fd.name, fd.linkage, fd.body.isSome)) =
        [("puts", some Linkage.external, false),
         ("sprintf", some Linkage.external, false),
         ("printf", some Linkage.external, false),
         ("print", none, true),
         ("println", none, true),
         ("int_add", none, true),
         ("int_to_string", none, true)] ∧
      (∀ program : List TyItem, compile program = compileItems pst program.reverse) :=
  ⟨_, rfl, rfl, fun _ => rfl⟩

/-- C9: the link step is a single external `clang` invocation whose
argument list carries the output path (after the `-o` flag) followed by
the input object path; a spawn failure is fatal, while a process that
runs and exits — with any status, zero or not — only has that status
printed and returned, compilation completing as a success. -/
theorem C9_link_step :
    (clangCommand.program = "clang" ∧
     clangCommand.args = ["-o", "build/main", "build/main.o"]) ∧
    (runLinkStep .spawnFailed = .error .clangSpawnFailed) ∧
    (∀ status : Int, runLinkStep (.exited status) = .ok status) ∧
    (∀ (program : List TyItem) (st : St) (status : Int),
      compile program = .ok st →
      compileAndLink program (.exited status) = .ok (st, status) ∧
      compileAndLink program .spawnFailed = .error .clangSpawnFailed) := by
  refine ⟨⟨rfl, rfl⟩, rfl, fun _ => rfl, ?_⟩
  intro program st status h
  constructor <;> simp [compileAndLink, h, runLinkStep]

/-- C9 witness: the empty program compiles, and a linker exiting with
the nonzero status 1 still yields a completed compilation. -/
theorem C9_witness :
    ∃ st : St, compile [] = .ok st ∧
      compileAndLink [] (.exited 1) = .ok (st, 1) ∧
      compileAndLink [] .spawnFailed = .error .clangSpawnFailed :=
  ⟨_, rfl, (C9_link_step.2.2.2 [] _ 1 rfl).1, (C9_link_step.2.2.2 [] _ 1 rfl).2⟩

/-- C10: the `int_to_string` buffer is `malloc`ed with element type
byte-POINTER (`i8*`), so the allocation is exactly one pointer — 8 bytes
on this 64-bit target — independent of the integer argument (the body is
the same for every argument); the buffer (instruction 0) is passed to
`sprintf` and returned, and no instruction of the body frees it. -/
theorem C10_int_to_string_buffer :
    ∃ (pst : St) (fd : FnDef) (instrs : List Instr),
      defineBuiltins emptySt = .ok pst ∧
      getFunction pst.functions "int_to_string" = some fd ∧
      fd.body = some instrs ∧
      instrs = [Instr.malloc (MTy.ptr .i8),
                Instr.call "sprintf" [.instrRes 0, .globalAddr 1, .param 0],
                Instr.ret (some (.instrRes 0))] ∧
      fd.ty.ret = MTy.ptr .i8 ∧
      sizeOfMTy (MTy.ptr .i8) = 8 ∧
      (∀ i ∈ instrs, isFreeInstr i = false) := by
  refine ⟨_, _, _, rfl, rfl, rfl, rfl, rfl, rfl, ?_⟩
  decide

/-- C2: every lowered string literal loses its first and last character
(the quotes), and a fresh private constant internally-linked null-
terminated byte-array global of length (unquoted byte length + 1) is
appended to the module, its contents the unquoted bytes followed by a
zero terminator; the address handed back is that of the newly appended
global, so every occurrence — statement or argument position — creates
a new global with no deduplication. -/
theorem C2_string_literal_global (b : BodySt) (lexeme : String) :
    ∃ g : GlobalDef,
      compile_string_literal b lexeme =
        ({ b with globals := b.globals ++ [g] }, b.globals.length) ∧
      g.name = "string_lit" ∧
      g.linkage = Linkage.internal ∧
      g.constant = true ∧
      g.init = strBytes ((lexeme.drop 1).dropRight 1) ++ [0] ∧
      g.ty = MTy.array .i8 ((strBytes ((lexeme.drop 1).dropRight 1)).length + 1) ∧
      g.init.length = (strBytes ((lexeme.drop 1).dropRight 1)).length + 1 ∧
      (compile_string_literal b lexeme).1.globals.length = b.globals.length + 1 ∧
      (∀ fns ps cnt, compile_expr fns ps cnt b (.literal (.string lexeme)) =
        .ok (compile_string_literal b lexeme).1) ∧
      (∀ fns ps cnt, compile_call_args fns ps cnt b [.literal (.string lexeme)] =
        .ok ((compile_string_literal b lexeme).1, [MValue.globalAddr b.globals.length])) := by
  refine ⟨_, rfl, rfl, rfl, rfl, rfl, rfl, by simp [unquote], by simp [compile_string_literal], ?_, ?_⟩
  · intro fns ps cnt
    rfl
  · intro fns ps cnt
    simp [compile_call_args, compile_string_literal]

/-- C4: a call whose callee name is absent from the module symbol table
writes an error line identifying the name, fails the call's lowering
recoverably with no call instruction built (the body is unchanged), and
the enclosing lowering then aborts fatally — in statement position via
the `.expect`, in argument position via the `.unwrap` — so compilation
never continues past it. -/
theorem C4_unresolved_callee :
    ∀ (fns : List FnDef) (ps : List TyFnParam) (cnt : Nat) (b : BodySt)
      (nm : String) (args : List TyExpr),
      getFunction fns nm = none →
      (compile_fn_call fns ps cnt b (.var nm) args =
        .ok ({ b with diagnostics := b.diagnostics ++ [Diag.fnNotFound nm] },
             .error (.fnNotFound nm))) ∧
      (compile_expr fns ps cnt b (.call (.var nm) args) =
        .error (.expectCallFailed nm)) ∧
      (∀ rest, compileStmts fns ps cnt b (.expr (.call (.var nm) args) :: rest) =
        .error (.expectCallFailed nm)) ∧
      (∀ rest, compile_call_args fns ps cnt b (.call (.var nm) args :: rest) =
        .error (.callUnwrapFailed (.fnNotFound nm))) := by
  intro fns ps cnt b nm args h
  have h1 : compile_fn_call fns ps cnt b (.var nm) args =
      .ok ({ b with diagnostics := b.diagnostics ++ [Diag.fnNotFound nm] },
           .error (.fnNotFound nm)) := by
    simp [compile_fn_call, h]
  refine ⟨h1, ?_, ?_, ?_⟩
  · simp [compile_expr, h1]
  · intro rest
    simp [compileStmts, compileStmt, compile_expr, h1]
  · intro rest
    simp [compile_call_args, h1]

/-- C4 witness: a call to the undefined name `foo` in an empty module. -/
theorem C4_witness :
    getFunction [] "foo" = none ∧
    compile_fn_call [] [] 0 emptyBody (.var "foo") [] =
      .ok ({ emptyBody with diagnostics := emptyBody.diagnostics ++ [Diag.fnNotFound "foo"] },
           .error (.fnNotFound "foo")) ∧
    compile_expr [] [] 0 emptyBody (.call (.var "foo") []) =
      .error (.expectCallFailed "foo") ∧
    compileStmts [] [] 0 emptyBody [.expr (.call (.var "foo") [])] =
      .error (.expectCallFailed "foo") ∧
    compile_call_args [] [] 0 emptyBody [.call (.var "foo") []] =
      .error (.callUnwrapFailed (.fnNotFound "foo")) := by
  have h := C4_unresolved_callee [] [] 0 emptyBody "foo" [] rfl
  exact ⟨rfl, h.1, h.2.1, h.2.2.1 [], h.2.2.2 []⟩

/-- A name matching none of the parameters is never found by the
indexed linear search, whatever the starting index. -/
theorem findParam_eq_none {nm : String} {ps : List TyFnParam}
    (h : ∀ p ∈ ps, p.name ≠ nm) : ∀ k, findParam nm ps k = none := by
  induction ps with
  | nil => intro k; rfl
  | cons p rest ih =>
    intro k
    have hp : (p.name == nm) = false := by
      simpa using h p (List.mem_cons_self p rest)
    simp only [findParam, hp, Bool.false_eq_true, if_false]
    exact ih (fun q hq => h q (List.mem_cons_of_mem p hq)) (k + 1)

/-- The linear search returns the first matching parameter together
with its position. -/
theorem findParam_first {nm : String} (pre : List TyFnParam) (p : TyFnParam)
    (post : List TyFnParam) (hpre : ∀ q ∈ pre, q.name ≠ nm) (hp : p.name = nm) :
    ∀ k, findParam nm (pre ++ p :: post) k = some (k + pre.length, p) := by
  induction pre with
  | nil =>
    intro k
    simp [findParam, hp]
  | cons q rest ih =>
    intro k
    have hq : (q.name == nm) = false := by
      simpa using hpre q (List.mem_cons_self q rest)
    simp only [List.cons_append, findParam, hq, Bool.false_eq_true, if_false]
    rw [List.append_eq, ih (fun r hr => hpre r (List.mem_cons_of_mem q hr)) (k + 1)]
    have : k + 1 + rest.length = k + (rest.length + 1) := by omega
    simp [this]

/-- C6: a variable reference in argument position resolves only by a
linear name search over the enclosing function's declared parameter
list, yielding the machine parameter at the first matching index; a
name not found among the parameters is a fatal abort (`Fatal`, the
process-killing `.expect`), not a recoverable `CallErr`. -/
theorem C6_param_resolution :
    ∀ (fns : List FnDef) (b : BodySt) (cnt : Nat) (nm : String) (ps : List TyFnParam),
      ((∀ p ∈ ps, p.name ≠ nm) →
        compile_call_args fns ps cnt b [.var nm] = .error (.paramNotFound nm)) ∧
      (∀ (pre post : List TyFnParam) (p : TyFnParam),
        ps = pre ++ p :: post → (∀ q ∈ pre, q.name ≠ nm) → p.name = nm →
        pre.length < cnt →
        compile_call_args fns ps cnt b [.var nm] = .ok (b, [MValue.param pre.length])) := by
  intro fns b cnt nm ps
  constructor
  · intro h
    have hf := findParam_eq_none h 0
    simp [compile_call_args, hf]
  · intro pre post p hps hpre hp hcnt
    subst hps
    have hf := findParam_first pre p post hpre hp 0
    rw [Nat.zero_add] at hf
    simp [compile_call_args, hf, hcnt]

/-- C6 witness: the name `y` misses the single parameter `a` fatally;
the name `b` resolves to machine parameter index 1 of `[a, b]`. -/
theorem C6_witness :
    compile_call_args [] [pDemoA] 1 emptyBody [.var "y"] =
      .error (.paramNotFound "y") ∧
    compile_call_args [] [pDemoA, pDemoB] 2 emptyBody [.var "b"] =
      .ok (emptyBody, [MValue.param 1]) := by
  constructor
  · exact (C6_param_resolution [] emptyBody 1 "y" [pDemoA]).1 (by decide)
  · exact (C6_param_resolution [] emptyBody 2 "b" [pDemoA, pDemoB]).2
      [pDemoA] [] pDemoB rfl (by decide) rfl (by decide)

/-- C8: an expression statement lowers its expression and discards the
resulting value (a successful call's call-site value is dropped, only
the updated context is kept; a string literal's global value is
dropped; an integer literal emits nothing), and a nested item statement
is a fatal unsupported abort. -/
theorem C8_statement_lowering :
    ∀ (fns : List FnDef) (ps : List TyFnParam) (cnt : Nat) (b : BodySt),
      (∀ it, compileStmt fns ps cnt b (.item it) = .error .todoNestedItem) ∧
      (∀ e, compileStmt fns ps cnt b (.expr e) = compile_expr fns ps cnt b e) ∧
      (∀ f args b1 cs,
        compile_fn_call fns ps cnt b f args = .ok (b1, .ok cs) →
        compileStmt fns ps cnt b (.expr (.call f args)) = .ok b1) ∧
      (∀ lexeme, compileStmt fns ps cnt b (.expr (.literal (.string lexeme))) =
        .ok (compile_string_literal b lexeme).1) ∧
      (∀ lit, compileStmt fns ps cnt b (.expr (.literal (.integer lit))) = .ok b) := by
  intro fns ps cnt b
  refine ⟨fun it => rfl, fun e => rfl, ?_, fun l => rfl, fun l => rfl⟩
  intro f args b1 cs h
  simp [compileStmt, compile_expr, h]

/-- C8 witness: a successful call to the void function `f` in statement
position keeps the emitted call instruction but drops the call-site
value. -/
theorem C8_witness :
    compile_fn_call [voidFnDemo] [] 0 emptyBody (.var "f") [] =
      .ok ({ globals := [], diagnostics := [], body := [Instr.call "f" []] },
           .ok { idx := 0, retTy := MTy.void }) ∧
    compileStmt [voidFnDemo] [] 0 emptyBody (.expr (.call (.var "f") [])) =
      .ok { globals := [], diagnostics := [], body := [Instr.call "f" []] } := by
  have h : compile_fn_call [voidFnDemo] [] 0 emptyBody (.var "f") [] =
      .ok ({ globals := [], diagnostics := [], body := [Instr.call "f" []] },
           .ok { idx := 0, retTy := MTy.void }) := by
    simp [compile_fn_call, compile_call_args, getFunction, voidFnDemo, emptyBody]
  exact ⟨h, (C8_statement_lowering [voidFnDemo] [] 0 emptyBody).2.2.1 _ _ _ _ h⟩

/-- C3: user items are lowered in exactly the reverse of their
declaration order (first conjunct: the lowering trace of a successful
compilation is the reversed name list), so whenever lowering reaches the
item at declaration index i, every item declared after it — at any
index j with i less than j — already has its function in the module
symbol table (second conjunct: the state at that moment is the prelude
state extended by the items after i, lowered in reverse). -/
theorem C3_reverse_order :
    (∀ (program : List TyItem) (st' : St),
      compile program = .ok st' →
      st'.lowered = (program.map TyItem.name).reverse) ∧
    (∀ (program : List TyItem) (i j : Nat) (hj : j < program.length) (pst st : St),
      defineBuiltins emptySt = .ok pst → i < j →
      compileItems pst ((program.drop (i + 1)).reverse) = .ok st →
      (program.get ⟨j, hj⟩).name ∈ st.functions.map FnDef.name) := by
  have hdb : ∃ pst : St, defineBuiltins emptySt = .ok pst ∧ pst.lowered = [] :=
    ⟨_, rfl, rfl⟩
  constructor
  · intro program st' h
    obtain ⟨pst, hpst, hlow⟩ := hdb
    unfold compile at h
    rw [hpst] at h
    have := (compileItems_names h).2
    rw [this, hlow, List.nil_append, List.map_reverse]
  · intro program i j hj pst st hpst hij hitems
    have hjd : j - (i + 1) < (program.drop (i + 1)).length := by
      rw [List.length_drop]
      omega
    have hmem : program.get ⟨j, hj⟩ ∈ program.drop (i + 1) := by
      have hsplit : program.get ⟨j, hj⟩ = (program.drop (i + 1)).get ⟨j - (i + 1), hjd⟩ := by
        simp only [List.get_eq_getElem, List.getElem_drop]
        congr 1
        omega
      rw [hsplit]
      exact List.get_mem _ _ _
    have hmemrev : program.get ⟨j, hj⟩ ∈ (program.drop (i + 1)).reverse :=
      List.mem_reverse.mpr hmem
    have hname : (program.get ⟨j, hj⟩).name ∈
        ((program.drop (i + 1)).reverse).map TyItem.name :=
      List.mem_map_of_mem TyItem.name hmemrev
    have hnames := (compileItems_names hitems).1
    rw [hnames]
    exact List.mem_append_right _ hname

/-- C3 witness: in the program [main, helper], when lowering reaches
`main` (declaration index 0) the lowered set is exactly the reversed
tail, and `helper` (declared later, index 1) is already in the symbol
table. -/
theorem C3_witness :
    ∃ pst st : St, defineBuiltins emptySt = .ok pst ∧
      compileItems pst (([mainDemo, helperDemo].drop (0 + 1)).reverse) = .ok st ∧
      ([mainDemo, helperDemo].get ⟨1, by decide⟩).name ∈ st.functions.map FnDef.name := by
  refine ⟨_, _, rfl, rfl, ?_⟩
  exact C3_reverse_order.2 [mainDemo, helperDemo] 0 1 (by decide) _ _ rfl (by decide) rfl
